import Mathlib

/-!
Verification of the ragequit streaming gateway against its specification.

Shallow embedding of the event-routing subsystem of the `ragequit`
repository: the timeline name codec (`subscription.rs`), the Redis
connection's incremental frame pump (`connection.rs`), and the
reference-counting receiver (`receiver/mod.rs`).

Rust `&str`/`String` values are modelled as their UTF-8 byte sequences
(`List Nat`), exactly as Rust represents them; machine integers `i64` are
modelled as `Int` with explicit range checks where the code checks for
overflow; panics (`unwrap`, `expect`, `log_fatal!`) are modelled as a
distinct `fatal` outcome; Redis and Postgres I/O is modelled by explicit
state passing and by functions supplied as parameters.
-/

set_option maxRecDepth 10000

namespace RQ

/-- Rust strings modelled as UTF-8 byte sequences. -/
abbrev RStr := List Nat

/-- Bytes of an ASCII string literal (used for the protocol's fixed tokens). -/
def strBytes (s : String) : RStr := s.data.map Char.toNat

/-- ASCII decimal digit test on a byte. -/
def isDigitByte (b : Nat) : Bool := 48 ≤ b && b ≤ 57

/-- Model of Rust's `str::split(':')`: split a byte string at every `:`
(byte 58), keeping empty pieces, never returning an empty list. -/
def splitColon : RStr → List RStr
  | [] => [[]]
  | b :: rest =>
    let tail := splitColon rest
    if b = 58 then [] :: tail
    else match tail with
      | t :: ts => (b :: t) :: ts
      | [] => [[b]]

/-- Accumulating digit parser: consumes decimal digits, failing on any
non-digit byte. -/
def parseDigitsAcc (acc : Nat) : RStr → Option Nat
  | [] => some acc
  | b :: rest =>
    if isDigitByte b then parseDigitsAcc (acc * 10 + (b - 48)) rest else none

/-- All-digits parse of a nonempty byte string to a natural number. -/
def parseDigits : RStr → Option Nat
  | [] => none
  | b :: rest => parseDigitsAcc 0 (b :: rest)

/-- Model of Rust's `str::parse::<i64>()`: optional sign, at least one
digit, and an overflow check against the `i64` range. -/
def parseI64 (s : RStr) : Option Int :=
  match s with
  | [] => none
  | b :: rest =>
    if b = 43 then -- '+'
      (parseDigits rest).bind fun n =>
        if n ≤ 2 ^ 63 - 1 then some (n : Int) else none
    else if b = 45 then -- '-'
      (parseDigits rest).bind fun n =>
        if n ≤ 2 ^ 63 then some (-(n : Int)) else none
    else
      (parseDigits s).bind fun n =>
        if n ≤ 2 ^ 63 - 1 then some (n : Int) else none

/-- Decimal digits of a natural number, most significant first
(model of Rust's `Display` for unsigned values). -/
def natToBytes (n : Nat) : RStr :=
  if h : n < 10 then [48 + n]
  else natToBytes (n / 10) ++ [48 + n % 10]
  decreasing_by exact Nat.div_lt_self (by omega) (by omega)

/-- Model of Rust's `Display` for `i64`: minus sign followed by the
decimal digits of the absolute value. -/
def intToBytes (i : Int) : RStr :=
  if i < 0 then 45 :: natToBytes i.natAbs else natToBytes i.natAbs

/-! ## The timeline name model (`src/parse_client_request/subscription.rs`) -/

/-- Model of `Stream` from `subscription.rs`. -/
inductive Stream
  | User (id : Int)
  | List (id : Int)
  | Direct (id : Int)
  | Hashtag (id : Int)
  | Public
  | Unset
  deriving DecidableEq, Repr

/-- Model of `Reach` from `subscription.rs`. -/
inductive Reach
  | Local
  | Federated
  deriving DecidableEq, Repr

/-- Model of `Content` from `subscription.rs`. -/
inductive Content
  | All
  | Media
  | Notification
  deriving DecidableEq, Repr

/-- The tuple struct `Timeline(Stream, Reach, Content)`. -/
structure Timeline where
  stream : Stream
  reach : Reach
  content : Content
  deriving DecidableEq, Repr

/-- Model of `Timeline::empty()`: the `(Unset, Local, Notification)` sentinel. -/
def Timeline.empty : Timeline := ⟨.Unset, .Local, .Notification⟩

/-- Modelled from the spec: `err.rs` is not among the extracted sources;
the spec lists the error kinds `InvalidInput` and `NamespaceMismatch`
produced by the timeline codec, and states that an id parse failure maps
to `InvalidInput` (the `From<ParseIntError>` instance used by `?`). -/
inductive TimelineErr
  | InvalidInput
  | RedisNamespaceMismatch
  deriving DecidableEq, Repr

/-- Outcome of the timeline decoder: success, a recoverable error, or a
panic (`log_fatal!` / `.unwrap()` on a failed parse / cache-miss panic). -/
inductive ParseTlResult
  | ok (tl : Timeline)
  | err (e : TimelineErr)
  | fatal
  deriving DecidableEq, Repr

/-- Model of `Timeline::to_redis_raw_timeline`: encode a timeline to its wire
channel (no namespace prefix is added here).  `none` models the
`log_fatal!` panic on a hashtag without a supplied name or on an illegal
combination. -/
def Timeline.to_redis_raw_timeline (t : Timeline) (hashtag : Option RStr) : Option RStr :=
  match t with
  | ⟨.Public, .Federated, .All⟩ => some (strBytes "timeline:public")
  | ⟨.Public, .Local, .All⟩ => some (strBytes "timeline:public:local")
  | ⟨.Public, .Federated, .Media⟩ => some (strBytes "timeline:public:media")
  | ⟨.Public, .Local, .Media⟩ => some (strBytes "timeline:public:local:media")
  | ⟨.Hashtag _, .Federated, .All⟩ =>
    (hashtag.map fun name => strBytes "timeline:hashtag:" ++ name)
  | ⟨.Hashtag _, .Local, .All⟩ =>
    (hashtag.map fun name => strBytes "timeline:hashtag:" ++ name ++ strBytes ":local")
  | ⟨.User id, .Federated, .All⟩ => some (strBytes "timeline:" ++ intToBytes id)
  | ⟨.User id, .Federated, .Notification⟩ =>
    some (strBytes "timeline:" ++ intToBytes id ++ strBytes ":notification")
  | ⟨.List id, .Federated, .All⟩ => some (strBytes "timeline:list:" ++ intToBytes id)
  | ⟨.Direct id, .Federated, .All⟩ => some (strBytes "timeline:direct:" ++ intToBytes id)
  | _ => none

/-- The hashtag cache: `LruCache<String, i64>` modelled as an association
list read through `List.lookup`; the claims under verification do not
depend on recency order or eviction. -/
abbrev TagCache := List (RStr × Int)

/-- Model of `id.parse().unwrap()` on a User/List/Direct id token: a parse failure
panics. -/
def parseIdUnwrap (tok : RStr) (k : Int → Timeline) : ParseTlResult :=
  match parseI64 tok with
  | some i => .ok (k i)
  | none => .fatal

/-- Model of `id.parse()?` on an id token: a parse failure becomes `InvalidInput`
(via the `From<ParseIntError>` instance, modelled from the spec). -/
def parseIdTry (tok : RStr) (k : Int → Timeline) : ParseTlResult :=
  match parseI64 tok with
  | some i => .ok (k i)
  | none => .err .InvalidInput

/-- The namespace-free arm of `Timeline::from_redis_raw_timeline`,
with the source's match arms replayed in order within each token arity. -/
def fromArmsNoNs (ts : List RStr) : ParseTlResult :=
  let tlB := strBytes "timeline"
  let publicB := strBytes "public"
  let localB := strBytes "local"
  let mediaB := strBytes "media"
  let hashtagB := strBytes "hashtag"
  let notifB := strBytes "notification"
  let listB := strBytes "list"
  let directB := strBytes "direct"
  match ts with
  | [a, b] =>
    if a = tlB ∧ b = publicB then .ok ⟨.Public, .Federated, .All⟩
    else if a = tlB then parseIdUnwrap b fun i => ⟨.User i, .Federated, .All⟩
    else .err .InvalidInput
  | [a, b, c] =>
    if b = tlB ∧ c = publicB then .err .RedisNamespaceMismatch
    else if a = tlB ∧ b = publicB ∧ c = localB then .ok ⟨.Public, .Local, .All⟩
    else if a = tlB ∧ b = publicB ∧ c = mediaB then .ok ⟨.Public, .Federated, .Media⟩
    else if a = tlB ∧ b = hashtagB then .ok ⟨.Hashtag 0, .Federated, .All⟩
    else if b = tlB then .err .RedisNamespaceMismatch
    else if a = tlB ∧ c = notifB then
      parseIdUnwrap b fun i => ⟨.User i, .Federated, .Notification⟩
    else if a = tlB ∧ b = listB then parseIdUnwrap c fun i => ⟨.List i, .Federated, .All⟩
    else if a = tlB ∧ b = directB then parseIdUnwrap c fun i => ⟨.Direct i, .Federated, .All⟩
    else .err .InvalidInput
  | [a, b, c, d] =>
    if b = tlB ∧ c = publicB ∧ d = localB then .err .RedisNamespaceMismatch
    else if b = tlB ∧ c = publicB ∧ d = mediaB then .err .RedisNamespaceMismatch
    else if a = tlB ∧ b = publicB ∧ c = localB ∧ d = mediaB then
      .ok ⟨.Public, .Local, .Media⟩
    else if b = tlB ∧ c = hashtagB then .err .RedisNamespaceMismatch
    else if a = tlB ∧ b = hashtagB ∧ d = localB then .ok ⟨.Hashtag 0, .Local, .All⟩
    else if b = tlB ∧ d = notifB then .err .RedisNamespaceMismatch
    else if b = tlB ∧ c = listB then .err .RedisNamespaceMismatch
    else if b = tlB ∧ c = directB then .err .RedisNamespaceMismatch
    else .err .InvalidInput
  | [_, b, c, d, e] =>
    if b = tlB ∧ c = publicB ∧ d = localB ∧ e = mediaB then .err .RedisNamespaceMismatch
    else if b = tlB ∧ c = hashtagB ∧ e = localB then .err .RedisNamespaceMismatch
    else .err .InvalidInput
  | _ => .err .InvalidInput

/-- The namespaced arm of `Timeline::from_redis_raw_timeline`: a guard
failure (`n ≠ ns`) falls through to the following `NamespaceMismatch`
arm; unmatched shapes hit the `log_fatal!` catch-all. -/
def fromArmsNs (ns : RStr) (ts : List RStr) (cache : TagCache) : ParseTlResult :=
  let tlB := strBytes "timeline"
  let publicB := strBytes "public"
  let localB := strBytes "local"
  let mediaB := strBytes "media"
  let hashtagB := strBytes "hashtag"
  let notifB := strBytes "notification"
  let listB := strBytes "list"
  let directB := strBytes "direct"
  match ts with
  | [a, _b] =>
    if a = tlB then .err .RedisNamespaceMismatch else .fatal
  | [a, b, c] =>
    if b = tlB ∧ c = publicB then
      if a = ns then .ok ⟨.Public, .Federated, .All⟩ else .err .RedisNamespaceMismatch
    else if a = tlB ∧ b = publicB ∧ c = localB then .err .RedisNamespaceMismatch
    else if a = tlB ∧ b = publicB ∧ c = mediaB then .err .RedisNamespaceMismatch
    else if a = tlB ∧ b = hashtagB then .err .RedisNamespaceMismatch
    else if b = tlB then
      if a = ns then parseIdUnwrap c fun i => ⟨.User i, .Federated, .All⟩
      else .err .RedisNamespaceMismatch
    else if a = tlB ∧ c = notifB then .err .RedisNamespaceMismatch
    else if a = tlB ∧ b = listB then .err .RedisNamespaceMismatch
    else if a = tlB ∧ b = directB then .err .RedisNamespaceMismatch
    else .fatal
  | [a, b, c, d] =>
    if b = tlB ∧ c = publicB ∧ d = localB then
      if a = ns then .ok ⟨.Public, .Local, .All⟩ else .err .RedisNamespaceMismatch
    else if b = tlB ∧ c = publicB ∧ d = mediaB then
      if a = ns then .ok ⟨.Public, .Federated, .Media⟩ else .err .RedisNamespaceMismatch
    else if a = tlB ∧ b = publicB ∧ c = localB ∧ d = mediaB then .err .RedisNamespaceMismatch
    else if b = tlB ∧ c = hashtagB then
      if a = ns then
        match cache.lookup d with
        | some tagId => .ok ⟨.Hashtag tagId, .Federated, .All⟩
        | none => .fatal
      else .err .RedisNamespaceMismatch
    else if a = tlB ∧ b = hashtagB ∧ d = localB then .err .RedisNamespaceMismatch
    else if b = tlB ∧ d = notifB then
      if a = ns then parseIdTry c fun i => ⟨.User i, .Federated, .Notification⟩
      else .err .RedisNamespaceMismatch
    else if b = tlB ∧ c = listB then
      if a = ns then parseIdTry d fun i => ⟨.List i, .Federated, .All⟩
      else .err .RedisNamespaceMismatch
    else if b = tlB ∧ c = directB then
      if a = ns then parseIdTry d fun i => ⟨.Direct i, .Federated, .All⟩
      else .err .RedisNamespaceMismatch
    else .fatal
  | [a, b, c, d, e] =>
    if b = tlB ∧ c = publicB ∧ d = localB ∧ e = mediaB then
      if a = ns then .ok ⟨.Public, .Local, .Media⟩ else .err .RedisNamespaceMismatch
    else if b = tlB ∧ c = hashtagB ∧ e = localB then
      if a = ns then .ok ⟨.Hashtag 0, .Local, .All⟩ else .err .RedisNamespaceMismatch
    else .fatal
  | _ => .fatal

/-- Model of `Timeline::from_redis_raw_timeline`: split the channel at `:` and
match the token list, in the namespaced or namespace-free arm. -/
def Timeline.from_redis_raw_timeline (timeline : RStr) (cache : TagCache)
    (namespac : Option RStr) : ParseTlResult :=
  let ts := splitColon timeline
  match namespac with
  | some ns => fromArmsNs ns ts cache
  | none => fromArmsNoNs ts

/-- The legal-combination table of the spec (§3). -/
def Timeline.isLegal : Timeline → Bool
  | ⟨.Public, .Federated, .All⟩ | ⟨.Public, .Local, .All⟩
  | ⟨.Public, .Federated, .Media⟩ | ⟨.Public, .Local, .Media⟩
  | ⟨.Hashtag _, .Federated, .All⟩ | ⟨.Hashtag _, .Local, .All⟩
  | ⟨.User _, .Federated, .All⟩ | ⟨.User _, .Federated, .Notification⟩
  | ⟨.List _, .Federated, .All⟩ | ⟨.Direct _, .Federated, .All⟩ => true
  | _ => false

/-- The ids carried by a timeline fit in `i64` (always true of the Rust
values; needed explicitly since ids are modelled as unbounded `Int`). -/
def Timeline.idInRange : Timeline → Prop
  | ⟨.User i, _, _⟩ | ⟨.List i, _, _⟩ | ⟨.Direct i, _, _⟩ | ⟨.Hashtag i, _, _⟩ =>
    -(2 ^ 63) ≤ i ∧ i ≤ 2 ^ 63 - 1
  | _ => True

/-! ## The subscription resolver (`src/parse_client_request/subscription.rs`) -/

/-- Model of `Scope` from `subscription.rs`. -/
inductive Scope
  | Read
  | Statuses
  | Notifications
  | Lists
  deriving DecidableEq, Repr

/-- Model of `UserData` from `subscription.rs`. -/
structure UserData where
  id : Int
  allowed_langs : List RStr
  scopes : List Scope
  deriving DecidableEq, Repr

/-- Model of `UserData::public()`: the anonymous user. -/
def UserData.public : UserData := ⟨-1, [], []⟩

/-- Model of `Blocks` from `subscription.rs`. -/
structure Blocks where
  blocked_domains : List RStr
  blocked_users : List Int
  blocking_users : List Int
  deriving DecidableEq, Repr

/-- The parsed request query record consumed by `Subscription::from_query`. -/
structure Query where
  access_token : Option RStr
  stream : RStr
  media : Bool
  hashtag : RStr
  list : Int
  deriving DecidableEq, Repr

/-- Model of `warp::reject::custom(msg)` modelled as the message it carries. -/
abbrev Rejection := RStr

/-- The Postgres pool, modelled as the record of query functions the
resolver calls on it (the database itself is outside the core). -/
structure PgPool where
  select_user : RStr → Except Rejection UserData
  select_hashtag_id : RStr → Except Rejection Int
  user_owns_list : Int → Int → Bool
  select_blocking_users : Int → List Int
  select_blocked_users : Int → List Int
  select_blocked_domains : Int → List RStr

/-- Model of `Subscription` from `subscription.rs`. -/
structure Subscription where
  timeline : Timeline
  allowed_langs : List RStr
  blocks : Blocks
  hashtag_name : Option RStr
  access_token : Option RStr
  deriving Repr

/-- Model of `Timeline::from_query_and_user`: choose the timeline from the stream
name, enforcing the scope requirements; auth failures and unknown stream
names are `warp` rejections. -/
def Timeline.from_query_and_user (q : Query) (user : UserData) (pool : PgPool) :
    Except Rejection Timeline :=
  if q.stream = strBytes "public" then
    .ok (if q.media then ⟨.Public, .Federated, .Media⟩ else ⟨.Public, .Federated, .All⟩)
  else if q.stream = strBytes "public:local" then
    .ok (if q.media then ⟨.Public, .Local, .Media⟩ else ⟨.Public, .Local, .All⟩)
  else if q.stream = strBytes "public:media" then .ok ⟨.Public, .Federated, .Media⟩
  else if q.stream = strBytes "public:local:media" then .ok ⟨.Public, .Local, .Media⟩
  else if q.stream = strBytes "hashtag" then
    (pool.select_hashtag_id q.hashtag).map fun i => ⟨.Hashtag i, .Federated, .All⟩
  else if q.stream = strBytes "hashtag:local" then
    (pool.select_hashtag_id q.hashtag).map fun i => ⟨.Hashtag i, .Local, .All⟩
  else if q.stream = strBytes "user" then
    if Scope.Statuses ∈ user.scopes then .ok ⟨.User user.id, .Federated, .All⟩
    else .error (strBytes "Error: Missing access token")
  else if q.stream = strBytes "user:notification" then
    if Scope.Statuses ∈ user.scopes then .ok ⟨.User user.id, .Federated, .Notification⟩
    else .error (strBytes "Error: Missing access token")
  else if q.stream = strBytes "list" then
    if Scope.Lists ∈ user.scopes ∧ pool.user_owns_list user.id q.list = true then
      .ok ⟨.List q.list, .Federated, .All⟩
    else .error (strBytes "Error: Missing access token")
  else if q.stream = strBytes "direct" then
    if Scope.Statuses ∈ user.scopes then .ok ⟨.Direct user.id, .Federated, .All⟩
    else .error (strBytes "Error: Missing access token")
  else .error (strBytes "Error: Nonexistent endpoint")

/-- Model of `Subscription::from_query`: resolve the user from the access token
(anonymous when absent and whitelist mode is off), choose the timeline,
and assemble the `Subscription` record. -/
def Subscription.from_query (q : Query) (pool : PgPool) (whitelist_mode : Bool) :
    Except Rejection Subscription :=
  let userRes : Except Rejection UserData := match q.access_token with
    | some token => pool.select_user token
    | none =>
      if whitelist_mode then .error (strBytes "Error: Invalid access token")
      else .ok UserData.public
  match userRes with
  | .error e => .error e
  | .ok user =>
    match Timeline.from_query_and_user q user pool with
    | .error e => .error e
    | .ok timeline =>
      let hashtag_name := match timeline with
        | ⟨.Hashtag _, _, _⟩ => some q.hashtag
        | _ => none
      .ok { timeline
            allowed_langs := user.allowed_langs
            blocks := ⟨pool.select_blocked_domains user.id, pool.select_blocked_users user.id,
              pool.select_blocking_users user.id⟩
            hashtag_name
            access_token := q.access_token }

/-! ## The incremental wire parser

Modelled from the spec: the parser module (`msg.rs`) is not among the
extracted sources.  The spec (§4.3) fixes its contract: the standard
array-of-bulk-strings framing `*N\r\n$L1\r\nB1\r\n…$LN\r\nBN\r\n`; an
array of 3 bulk strings whose first element is literally `message` is a
`Msg` (channel, payload, leftover input); any other array shape is a
`NonMsg`; a buffer ending mid-frame is `Incomplete`; a structurally
invalid frame is malformed. -/

/-- Parse errors of the wire parser: `Incomplete` (retain the buffer and
re-enter with more data) or a malformed frame. -/
inductive RedisParseErr
  | Incomplete
  | Malformed
  deriving DecidableEq, Repr

/-- Model of `RedisParseOutput` from the spec: a pub/sub message or a non-message
command reply, each carrying the unconsumed leftover input. -/
inductive RedisParseOutput
  | Msg (timeline_txt : RStr) (event_txt : RStr) (leftover_input : RStr)
  | NonMsg (leftover_input : RStr)
  deriving DecidableEq, Repr

instance {e a : Type} [DecidableEq e] [DecidableEq a] : DecidableEq (Except e a)
  | .error x, .error y =>
    match decEq x y with
    | isTrue h => isTrue (by rw [h])
    | isFalse h => isFalse fun hh => h (by cases hh; rfl)
  | .error _, .ok _ => isFalse fun h => Except.noConfusion h
  | .ok _, .error _ => isFalse fun h => Except.noConfusion h
  | .ok x, .ok y =>
    match decEq x y with
    | isTrue h => isTrue (by rw [h])
    | isFalse h => isFalse fun hh => h (by cases hh; rfl)

/-- Modelled from the spec: a decimal length followed by `\r\n`. -/
def parseLenLine (s : RStr) : Except RedisParseErr (Nat × RStr) :=
  match s with
  | [] => .error .Incomplete
  | _ =>
    let ds := s.takeWhile isDigitByte
    let rest := s.dropWhile isDigitByte
    if ds = [] then .error .Malformed
    else
      match rest with
      | [] => .error .Incomplete
      | [13] => .error .Incomplete
      | 13 :: 10 :: tail => .ok (ds.foldl (fun a b => a * 10 + (b - 48)) 0, tail)
      | _ => .error .Malformed

/-- Modelled from the spec: one bulk string `$L\r\n<L bytes>\r\n`. -/
def parseBulk (s : RStr) : Except RedisParseErr (RStr × RStr) :=
  match s with
  | [] => .error .Incomplete
  | 36 :: rest =>
    (parseLenLine rest).bind fun (len, rest2) =>
      if rest2.length < len then .error .Incomplete
      else
        match rest2.drop len with
        | [] => .error .Incomplete
        | [13] => .error .Incomplete
        | 13 :: 10 :: tail => .ok (rest2.take len, tail)
        | _ => .error .Malformed
  | _ => .error .Malformed

/-- Modelled from the spec: `n` consecutive bulk strings. -/
def parseBulks : Nat → RStr → Except RedisParseErr (List RStr × RStr)
  | 0, s => .ok ([], s)
  | n + 1, s =>
    (parseBulk s).bind fun (b, rest) =>
      (parseBulks n rest).map fun (bs, rest2) => (b :: bs, rest2)

/-- Modelled from the spec: `RedisParseOutput::try_from(&str)` — parse one
framing unit from the front of the input. -/
def RedisParseOutput.try_from (s : RStr) : Except RedisParseErr RedisParseOutput :=
  match s with
  | [] => .error .Incomplete
  | 42 :: rest =>
    (parseLenLine rest).bind fun (n, rest2) =>
      (parseBulks n rest2).map fun (elems, leftover) =>
        match elems with
        | [m, chan, payload] =>
          if m = strBytes "message" then .Msg chan payload leftover else .NonMsg leftover
        | _ => .NonMsg leftover
  | _ => .error .Malformed

/-! ## UTF-8 prefix validation (model of `str::from_utf8` / `valid_up_to`) -/

/-- A UTF-8 continuation byte (`0x80..=0xBF`). -/
def isContByte (b : Nat) : Bool := 128 ≤ b && b ≤ 191

/-- Two-byte sequence check: one continuation byte follows. -/
def utf8Cont2 (rest : RStr) : Option Nat :=
  match rest with
  | b1 :: _ => if isContByte b1 then some 2 else none
  | [] => none

/-- Three-byte sequence check: the first continuation byte is confined to
`lo..=hi` (tightened for `0xE0`/`0xED` leads, per Rust's validation of
overlongs and surrogates). -/
def utf8Cont3 (lo hi : Nat) (rest : RStr) : Option Nat :=
  match rest with
  | b1 :: b2 :: _ => if (lo ≤ b1 && b1 ≤ hi) && isContByte b2 then some 3 else none
  | _ => none

/-- Four-byte sequence check: the first continuation byte is confined to
`lo..=hi` (tightened for `0xF0`/`0xF4` leads). -/
def utf8Cont4 (lo hi : Nat) (rest : RStr) : Option Nat :=
  match rest with
  | b1 :: b2 :: b3 :: _ =>
    if (lo ≤ b1 && b1 ≤ hi) && (isContByte b2 && isContByte b3) then some 4 else none
  | _ => none

/-- Length of one well-formed UTF-8 scalar encoding at the head of the
buffer, or `none` — replaying Rust's validation exactly (overlongs,
surrogates and values above `U+10FFFF` rejected; a truncated trailing
sequence is not counted as valid). -/
def utf8SeqLen : RStr → Option Nat
  | [] => none
  | b0 :: rest =>
    if b0 ≤ 0x7F then some 1
    else if b0 ≤ 0xC1 then none
    else if b0 ≤ 0xDF then utf8Cont2 rest
    else if b0 = 0xE0 then utf8Cont3 160 191 rest
    else if b0 ≤ 0xEC then utf8Cont3 128 191 rest
    else if b0 = 0xED then utf8Cont3 128 159 rest
    else if b0 ≤ 0xEF then utf8Cont3 128 191 rest
    else if b0 = 0xF0 then utf8Cont4 144 191 rest
    else if b0 ≤ 0xF3 then utf8Cont4 128 191 rest
    else if b0 = 0xF4 then utf8Cont4 128 143 rest
    else none

theorem utf8Cont2_pos {rest : RStr} {k : Nat} (h : utf8Cont2 rest = some k) : k = 2 := by
  rw [utf8Cont2.eq_def] at h
  repeat' split at h
  all_goals first
    | exact Option.noConfusion h
    | (injection h with h'; omega)

theorem utf8Cont3_pos {lo hi : Nat} {rest : RStr} {k : Nat}
    (h : utf8Cont3 lo hi rest = some k) : k = 3 := by
  rw [utf8Cont3.eq_def] at h
  repeat' split at h
  all_goals first
    | exact Option.noConfusion h
    | (injection h with h'; omega)

theorem utf8Cont4_pos {lo hi : Nat} {rest : RStr} {k : Nat}
    (h : utf8Cont4 lo hi rest = some k) : k = 4 := by
  rw [utf8Cont4.eq_def] at h
  repeat' split at h
  all_goals first
    | exact Option.noConfusion h
    | (injection h with h'; omega)

theorem utf8SeqLen_pos {bs : RStr} {k : Nat} (h : utf8SeqLen bs = some k) :
    1 ≤ k ∧ (bs.drop k).length < bs.length := by
  match bs with
  | [] => exact Option.noConfusion h
  | b0 :: rest =>
    have hk : 1 ≤ k := by
      rw [utf8SeqLen.eq_def] at h
      repeat' split at h
      all_goals first
        | exact Option.noConfusion h
        | (injection h with h'; omega)
        | (have hc := utf8Cont2_pos h; omega)
        | (have hc := utf8Cont3_pos h; omega)
        | (have hc := utf8Cont4_pos h; omega)
    refine ⟨hk, ?_⟩
    rw [List.length_drop]
    simp only [List.length_cons]
    omega

/-- Greedy scalar scan with explicit fuel; each accepted sequence
consumes at least one byte (`utf8SeqLen_pos`), so fuel `bs.length`
never runs out. -/
def utf8ValidUpToFuel : Nat → RStr → Nat
  | 0, _ => 0
  | fuel + 1, bs =>
    match utf8SeqLen bs with
    | some k => k + utf8ValidUpToFuel fuel (bs.drop k)
    | none => 0

/-- Model of `e.valid_up_to()` of Rust's `str::from_utf8`: the length of the
longest prefix of the buffer that is valid UTF-8, computed by greedy
scalar decoding. -/
def utf8ValidUpTo (bs : RStr) : Nat := utf8ValidUpToFuel bs.length bs

/-! ## The bus connection (`src/response/redis/connection.rs`) -/

/-- Modelled from the spec: an `Event` is an opaque JSON payload carried
by value through the router (`event.rs` is not among the extracted
sources); we model it as the raw payload string, so its `TryFrom<&str>`
conversion is total. -/
abbrev Event := RStr

/-- Model of `ManagerErr` cases reachable from `poll_redis`. -/
inductive ManagerErr
  | RedisParseErr (e : RedisParseErr)
  | TimelineErr (e : TimelineErr)
  deriving DecidableEq, Repr

/-- Model of `futures::Async`. -/
inductive Async (α : Type)
  | Ready (a : α)
  | NotReady
  deriving DecidableEq, Repr

/-- The overall outcome of one `poll_redis` call: `Ok(Async<…>)`, an
`Err(ManagerErr)`, or a panic (`fatal`). -/
inductive PollOutcome
  | ok (a : Async (Option (Timeline × Event)))
  | error (e : ManagerErr)
  | fatal
  deriving DecidableEq, Repr

/-- The `RedisConn` state that `poll_redis` reads and writes: the
configured namespace, the hashtag cache, and the carried-over input
buffer.  The two TCP sockets are modelled by passing the newly read
bytes as an argument. -/
structure RedisConn where
  redis_namespace : Option RStr
  tag_id_cache : TagCache
  redis_input : RStr
  deriving DecidableEq, Repr

/-- Byte-prefix test (`str::starts_with`). -/
def startsWithB (pre s : RStr) : Bool := s.take pre.length = pre

/-- Rust string slicing `s[i..]`: panics (`none`) when `i` is past the
end or not on a character boundary. -/
def sliceFrom (s : RStr) (i : Nat) : Option RStr :=
  if s.length < i then none
  else
    match s.drop i with
    | [] => some []
    | b :: _ => if isContByte b then none else some (s.drop i)

/-- Modelled from the spec: `Timeline::from_redis_text` (in the
`request` module, not among the extracted sources) decodes a channel
whose `timeline:` prefix has already been stripped, per the §3 table;
hashtag names resolve through the cache's name→id map and a miss is a
fatal error; id parse failures are `InvalidInput`. -/
def Timeline.from_redis_text (s : RStr) (cache : TagCache) : ParseTlResult :=
  let publicB := strBytes "public"
  let localB := strBytes "local"
  let mediaB := strBytes "media"
  let hashtagB := strBytes "hashtag"
  let notifB := strBytes "notification"
  let listB := strBytes "list"
  let directB := strBytes "direct"
  match splitColon s with
  | [a] =>
    if a = publicB then .ok ⟨.Public, .Federated, .All⟩
    else parseIdTry a fun i => ⟨.User i, .Federated, .All⟩
  | [a, b] =>
    if a = publicB ∧ b = localB then .ok ⟨.Public, .Local, .All⟩
    else if a = publicB ∧ b = mediaB then .ok ⟨.Public, .Federated, .Media⟩
    else if a = hashtagB then
      match cache.lookup b with
      | some i => .ok ⟨.Hashtag i, .Federated, .All⟩
      | none => .fatal
    else if b = notifB then parseIdTry a fun i => ⟨.User i, .Federated, .Notification⟩
    else if a = listB then parseIdTry b fun i => ⟨.List i, .Federated, .All⟩
    else if a = directB then parseIdTry b fun i => ⟨.Direct i, .Federated, .All⟩
    else .err .InvalidInput
  | [a, b, c] =>
    if a = publicB ∧ b = localB ∧ c = mediaB then .ok ⟨.Public, .Local, .Media⟩
    else if a = hashtagB ∧ c = localB then
      match cache.lookup b with
      | some i => .ok ⟨.Hashtag i, .Local, .All⟩
      | none => .fatal
    else .err .InvalidInput
  | _ => .err .InvalidInput

/-- Model of `RedisConn::poll_redis`: append the newly read bytes to the carried
buffer; if empty, `NotReady`.  Otherwise split at the longest valid
UTF-8 prefix, parse one framing unit from the valid part, and write the
leftover (and the invalid tail) back into the buffer.  A decode error
from `?` returns early, so the leftover is dropped on that path, and the
namespace-free branch's blind `["timeline:".len()..]` slice can panic. -/
def RedisConn.poll_redis (conn : RedisConn) (new_bytes : RStr) : RedisConn × PollOutcome :=
  let buf := conn.redis_input ++ new_bytes
  if buf = [] then ({ conn with redis_input := [] }, .ok .NotReady)
  else
    let v := utf8ValidUpTo buf
    let input := buf.take v
    let invalid_bytes := buf.drop v
    let cleared : RedisConn := { conn with redis_input := [] }
    match RedisParseOutput.try_from input with
    | .ok (.Msg tl_txt event_txt leftover) =>
      match conn.redis_namespace with
      | some ns =>
        if startsWithB (ns ++ strBytes ":timeline:") tl_txt then
          let trimmed := tl_txt.drop (ns.length + 10)
          match Timeline.from_redis_text trimmed conn.tag_id_cache with
          | .ok tl =>
            ({ cleared with redis_input := leftover ++ invalid_bytes },
              .ok (.Ready (some (tl, event_txt))))
          | .err e => (cleared, .error (.TimelineErr e))
          | .fatal => (cleared, .fatal)
        else ({ cleared with redis_input := leftover ++ invalid_bytes }, .ok (.Ready none))
      | none =>
        match sliceFrom tl_txt 9 with
        | none => (cleared, .fatal)
        | some trimmed =>
          match Timeline.from_redis_text trimmed conn.tag_id_cache with
          | .ok tl =>
            ({ cleared with redis_input := leftover ++ invalid_bytes },
              .ok (.Ready (some (tl, event_txt))))
          | .err e => (cleared, .error (.TimelineErr e))
          | .fatal => (cleared, .fatal)
    | .ok (.NonMsg leftover) =>
      ({ cleared with redis_input := leftover ++ invalid_bytes }, .ok (.Ready none))
    | .error .Incomplete =>
      ({ cleared with redis_input := input ++ invalid_bytes }, .ok .NotReady)
    | .error e =>
      ({ cleared with redis_input := input ++ invalid_bytes }, .error (.RedisParseErr e))

/-! ## The receiver (`src/redis_to_client_stream/receiver/mod.rs`) -/

/-- Client handles. -/
abbrev Uuid := Nat

/-- The two pub/sub commands. -/
inductive RedisCmdKind
  | subscribe
  | unsubscribe
  deriving DecidableEq, Repr

/-- One command emission by `pubsub_cmd!`: the kind together with the
timeline and optional hashtag name from which the wire channel is
formatted (`change.timeline.to_redis_channel(hashtag)`). -/
structure PubSubCmd where
  kind : RedisCmdKind
  timeline : Timeline
  hashtag : Option RStr
  deriving DecidableEq, Repr

/-- Modelled from the spec: the `Change` records produced by
`calculate_timelines_to_add_or_drop` in the (unextracted)
`message_queues.rs` — `+1` for the newly registered timeline, `-1` for
each garbage-collected stale queue. -/
structure Change where
  timeline : Timeline
  in_subscriber_number : Int
  deriving DecidableEq, Repr

/-- The receiver's `clients_per_timeline: HashMap<Timeline, i32>`,
modelled as an association list. -/
abbrev ClientCounts := List (Timeline × Int)

def countsGet : ClientCounts → Timeline → Option Int
  | [], _ => none
  | (t', v) :: rest, t => if t' = t then some v else countsGet rest t

def countsSet : ClientCounts → Timeline → Int → ClientCounts
  | [], t, v => [(t, v)]
  | (t', v') :: rest, t, v =>
    if t' = t then (t', v) :: rest else (t', v') :: countsSet rest t v

/-- The per-change body of `subscribe_or_unsubscribe_as_needed`
(lines 101–139): bump the count via the entry API
(`and_modify(|n| n += change.in_subscriber_number).or_insert_with(|| 1)`),
then emit `unsubscribe` when the new count is ≤ 0, `subscribe` when the
new count is 1 and the change added a subscriber, and nothing otherwise. -/
def processChange (counts : ClientCounts) (ch : Change) (hashtag : Option RStr) :
    ClientCounts × List PubSubCmd :=
  let n := match countsGet counts ch.timeline with
    | some k => k + ch.in_subscriber_number
    | none => 1
  let counts' := countsSet counts ch.timeline n
  let cmds :=
    if n ≤ 0 then [⟨.unsubscribe, ch.timeline, hashtag⟩]
    else if n = 1 ∧ ch.in_subscriber_number = 1 then [⟨.subscribe, ch.timeline, hashtag⟩]
    else ([] : List PubSubCmd)
  (counts', cmds)

/-- The hashtag caches of the receiver. -/
structure TagCaches where
  id_to_hashtag : List (Int × RStr)
  hashtag_to_id : TagCache
  deriving DecidableEq, Repr

def idLookup : List (Int × RStr) → Int → Option RStr
  | [], _ => none
  | (i', s) :: rest, i => if i' = i then some s else idLookup rest i

def tagLookup : TagCache → RStr → Option Int
  | [], _ => none
  | (s', i) :: rest, s => if s' = s then some i else tagLookup rest s

def idSet : List (Int × RStr) → Int → RStr → List (Int × RStr)
  | [], i, s => [(i, s)]
  | (i', s') :: rest, i, s =>
    if i' = i then (i', s) :: rest else (i', s') :: idSet rest i s

def tagSet : TagCache → RStr → Int → TagCache
  | [], s, i => [(s, i)]
  | (s', i') :: rest, s, i =>
    if s' = s then (s', i) :: rest else (s', i') :: tagSet rest s i

/-- The hashtag-name resolution in `subscribe_or_unsubscribe_as_needed`
(lines 107–124): for a `Hashtag` timeline, take the cached name or fall
back to a Postgres lookup (whose failure, `.expect("TODO")`, panics —
`none`), then re-seed both cache directions. -/
def resolveHashtag (cache : TagCaches) (select_hashtag_name : Int → Option RStr)
    (timeline : Timeline) : Option (TagCaches × Option RStr) :=
  match timeline with
  | ⟨.Hashtag id, _, _⟩ =>
    let tag? := match idLookup cache.id_to_hashtag id with
      | some tag => some tag
      | none => select_hashtag_name id
    tag?.map fun tag =>
      (⟨idSet cache.id_to_hashtag id tag, tagSet cache.hashtag_to_id tag id⟩, some tag)
  | _ => some (cache, none)

/-- Model of `subscribe_or_unsubscribe_as_needed` over the change list: resolve
the hashtag name of the *outer* (newly managed) timeline for each change
— as the source does — then run the per-change count-and-emit body. -/
def processChanges (counts : ClientCounts) (cache : TagCaches)
    (select_hashtag_name : Int → Option RStr) (outer : Timeline) :
    List Change → Option (ClientCounts × TagCaches × List PubSubCmd)
  | [] => some (counts, cache, [])
  | ch :: rest =>
    (resolveHashtag cache select_hashtag_name outer).bind fun (cache', hashtag) =>
      let (counts', cmds) := processChange counts ch hashtag
      (processChanges counts' cache' select_hashtag_name outer rest).map
        fun (counts'', cache'', cmds') => (counts'', cache'', cmds ++ cmds')

/-- A client's message queue (`MsgQueue`). -/
structure MsgQueue where
  timeline : Timeline
  messages : List RStr
  last_polled_at : Nat
  deriving DecidableEq, Repr

def MsgQueue.new (timeline : Timeline) (now : Nat) : MsgQueue := ⟨timeline, [], now⟩

/-- Model of `MessageQueues`, keyed by client id. -/
abbrev MessageQueues := List (Uuid × MsgQueue)

/-- The receiver state that its claims depend on; instants are modelled
by passing elapsed times and the current time as arguments. -/
structure Receiver where
  msg_queues : MessageQueues
  clients_per_timeline : ClientCounts
  timeline : Timeline
  manager_id : Uuid
  hashtag_to_id : TagCache
  redis_poll_interval : Nat
  deriving DecidableEq, Repr

/-- Model of `impl Drop for Receiver` (lines 193–199): emits a single
`unsubscribe` for the last-assigned `self.timeline`, with
`hashtag = None` (the source's "TODO fix for hashtags"). -/
def Receiver.drop_cmds (r : Receiver) : List PubSubCmd :=
  [⟨.unsubscribe, r.timeline, none⟩]

/-- The timelines with a positive client refcount. -/
def activeTimelines (m : ClientCounts) : List Timeline :=
  (m.filter fun p => 0 < p.2).map fun p => p.1

/-- The hashtag-id recovery in `Receiver::poll` (lines 162–171): a
channel starting with `hashtag` has its tag name re-looked-up in the
cache; a missing second token or a cache miss panics (`expect("TODO")`). -/
def tagFromRaw (cache : TagCache) (raw : RStr) : Option (Option Int) :=
  if startsWithB (strBytes "hashtag") raw then
    match (splitColon raw).get? 1 with
    | some tag_name =>
      match tagLookup cache tag_name with
      | some id => some (some id)
      | none => none
    | none => none
  else some none

/-- Modelled from the spec: `Timeline::from_redis_channel` decodes an
already-`timeline:`-stripped channel per the §3 table, the hashtag id
being supplied by the caller; unknown shapes are a fatal error (`none`). -/
def fromRedisChannel (raw : RStr) (hashtag : Option Int) : Option Timeline :=
  let publicB := strBytes "public"
  let localB := strBytes "local"
  let mediaB := strBytes "media"
  let hashtagB := strBytes "hashtag"
  let notifB := strBytes "notification"
  let listB := strBytes "list"
  let directB := strBytes "direct"
  match splitColon raw with
  | [a] =>
    if a = publicB then some ⟨.Public, .Federated, .All⟩
    else (parseI64 a).map fun i => ⟨.User i, .Federated, .All⟩
  | [a, b] =>
    if a = publicB ∧ b = localB then some ⟨.Public, .Local, .All⟩
    else if a = publicB ∧ b = mediaB then some ⟨.Public, .Federated, .Media⟩
    else if a = hashtagB then hashtag.map fun i => ⟨.Hashtag i, .Federated, .All⟩
    else if b = notifB then (parseI64 a).map fun i => ⟨.User i, .Federated, .Notification⟩
    else if a = listB then (parseI64 b).map fun i => ⟨.List i, .Federated, .All⟩
    else if a = directB then (parseI64 b).map fun i => ⟨.Direct i, .Federated, .All⟩
    else none
  | [a, b, c] =>
    if a = publicB ∧ b = localB ∧ c = mediaB then some ⟨.Public, .Local, .Media⟩
    else if a = hashtagB ∧ c = localB then hashtag.map fun i => ⟨.Hashtag i, .Local, .All⟩
    else none
  | _ => none

/-- Append an event to every queue whose timeline matches (the fan-out
loop of `Receiver::poll`, lines 173–177). -/
def appendToQueues (queues : MessageQueues) (tl : Timeline) (v : RStr) : MessageQueues :=
  queues.map fun (id, q) =>
    if q.timeline = tl then (id, { q with messages := q.messages ++ [v] }) else (id, q)

/-- The drain loop of `Receiver::poll` (lines 161–178): decode each
(channel, payload) pair yielded by the pub/sub stream and fan it out;
`none` models the panics of the hashtag branch and of an undecodable
channel. -/
def drainMessages (cache : TagCache) (queues : MessageQueues) :
    List (RStr × RStr) → Option MessageQueues
  | [] => some queues
  | (raw, v) :: rest =>
    (tagFromRaw cache raw).bind fun hashtag =>
      (fromRedisChannel raw hashtag).bind fun tl =>
        drainMessages cache (appendToQueues queues tl v) rest

/-- The rate-limited drain: the pub/sub stream is drained only when the
elapsed time since the last bus poll strictly exceeds the poll interval
(`redis_polled_at.elapsed() > *redis_poll_interval`). -/
def queuesAfterDrain (r : Receiver) (elapsed : Nat) (incoming : List (RStr × RStr)) :
    Option MessageQueues :=
  if r.redis_poll_interval < elapsed then drainMessages r.hashtag_to_id r.msg_queues incoming
  else some r.msg_queues

/-- Modelled from the spec: `update_time_for_target_queue` (in the
unextracted `message_queues.rs`) records the current time as the named
queue's last-polled time. -/
def update_time_for_target_queue : MessageQueues → Uuid → Nat → MessageQueues
  | [], _, _ => []
  | (qid, q) :: rest, id, now =>
    (if qid = id then (qid, { q with last_polled_at := now }) else (qid, q))
      :: update_time_for_target_queue rest id now

/-- Modelled from the spec: `oldest_msg_in_target_queue` (in the
unextracted `message_queues.rs`) inserts an empty queue for the id if
absent (`entry(id).or_insert_with(|| MsgQueue::new(timeline))`) and pops
the front message, if any. -/
def oldest_msg_in_target_queue (queues : MessageQueues) (id : Uuid) (tl : Timeline)
    (now : Nat) : MessageQueues × Option RStr :=
  match queues with
  | [] => ([(id, MsgQueue.new tl now)], none)
  | (qid, q) :: rest =>
    if qid = id then
      match q.messages with
      | [] => ((qid, q) :: rest, none)
      | m :: ms => ((qid, { q with messages := ms }) :: rest, some m)
    else
      let (rest', msg) := oldest_msg_in_target_queue rest id tl now
      ((qid, q) :: rest', msg)

/-- The two outcomes of `Receiver::poll`. -/
inductive PollResult
  | Ready (v : RStr)
  | NotReady
  deriving DecidableEq, Repr

/-- Model of `Receiver::poll` (lines 157–190): conditionally drain the bus, touch
the target queue's poll time, and pop its oldest message; `none` models
the drain loop's panics. -/
def Receiver.poll (r : Receiver) (elapsed : Nat) (now : Nat)
    (incoming : List (RStr × RStr)) : Option (Receiver × PollResult) :=
  (queuesAfterDrain r elapsed incoming).map fun qs =>
    let qs2 := update_time_for_target_queue qs r.manager_id now
    let popped := oldest_msg_in_target_queue qs2 r.manager_id r.timeline now
    ({ r with msg_queues := popped.1 },
      match popped.2 with
      | some v => .Ready v
      | none => .NotReady)

end RQ

namespace RQ

/-! ## Lemmas on the byte-string machinery -/

theorem natToBytes_mem_digit {n b : Nat} (h : b ∈ natToBytes n) : 48 ≤ b ∧ b ≤ 57 := by
  induction n using natToBytes.induct with
  | case1 n hn =>
    rw [natToBytes, dif_pos hn] at h
    simp only [List.mem_singleton] at h
    omega
  | case2 n hn ih =>
    rw [natToBytes, dif_neg hn] at h
    rcases List.mem_append.1 h with h' | h'
    · exact ih h'
    · simp only [List.mem_singleton] at h'
      have : n % 10 < 10 := Nat.mod_lt _ (by omega)
      omega

theorem natToBytes_ne_nil (n : Nat) : natToBytes n ≠ [] := by
  rw [natToBytes]
  split
  · simp
  · simp

theorem parseDigitsAcc_append (acc : Nat) (xs ys : RStr) :
    parseDigitsAcc acc (xs ++ ys) =
      match parseDigitsAcc acc xs with
      | some a => parseDigitsAcc a ys
      | none => none := by
  induction xs generalizing acc with
  | nil => simp [parseDigitsAcc]
  | cons b rest ih =>
    by_cases hb : isDigitByte b
    · simp only [List.cons_append, parseDigitsAcc, if_pos hb, List.append_eq]
      exact ih _
    · simp only [List.cons_append, parseDigitsAcc, if_neg hb]

theorem parseDigitsAcc_natToBytes (n : Nat) :
    ∀ acc, parseDigitsAcc acc (natToBytes n) =
      some (acc * 10 ^ (natToBytes n).length + n) := by
  induction n using natToBytes.induct with
  | case1 n hn =>
    intro acc
    rw [natToBytes, dif_pos hn]
    simp only [parseDigitsAcc, isDigitByte, List.length_singleton]
    rw [if_pos (by simp; omega)]
    simp only [pow_one]
    congr 1
    omega
  | case2 n hn ih =>
    intro acc
    rw [natToBytes, dif_neg hn]
    rw [parseDigitsAcc_append, ih acc]
    have h10 : n % 10 < 10 := Nat.mod_lt _ (by omega)
    simp only [parseDigitsAcc, isDigitByte, List.length_append,
      List.length_singleton]
    rw [if_pos (by simp; omega)]
    congr 1
    have : 48 + n % 10 - 48 = n % 10 := by omega
    rw [this, pow_succ]
    have hdm := Nat.div_add_mod n 10
    ring_nf
    omega

theorem parseDigits_natToBytes (n : Nat) : parseDigits (natToBytes n) = some n := by
  rcases hn : natToBytes n with _ | ⟨b, rest⟩
  · exact absurd hn (natToBytes_ne_nil n)
  · rw [parseDigits, ← hn, parseDigitsAcc_natToBytes n 0]
    simp

theorem parseI64_intToBytes {i : Int} (h1 : -(2 ^ 63) ≤ i) (h2 : i ≤ 2 ^ 63 - 1) :
    parseI64 (intToBytes i) = some i := by
  by_cases hneg : i < 0
  · rw [intToBytes, if_pos hneg, parseI64,
      if_neg (show ¬ (45 : Nat) = 43 by omega), if_pos rfl, parseDigits_natToBytes]
    simp only [Option.bind]
    rw [if_pos (by omega)]
    congr 1
    omega
  · rw [intToBytes, if_neg hneg]
    obtain ⟨b, rest, hbr⟩ : ∃ b rest, natToBytes i.natAbs = b :: rest := by
      rcases hn : natToBytes i.natAbs with _ | ⟨b, rest⟩
      · exact absurd hn (natToBytes_ne_nil _)
      · exact ⟨b, rest, rfl⟩
    have hdig : 48 ≤ b ∧ b ≤ 57 :=
      natToBytes_mem_digit (show b ∈ natToBytes i.natAbs by rw [hbr]; simp)
    rw [hbr, parseI64, if_neg (show ¬ b = 43 by omega),
      if_neg (show ¬ b = 45 by omega), ← hbr, parseDigits_natToBytes]
    simp only [Option.bind]
    rw [if_pos (by omega)]
    congr 1
    omega

theorem splitColon_no_colon {s : RStr} (h : 58 ∉ s) : splitColon s = [s] := by
  induction s with
  | nil => rfl
  | cons b rest ih =>
    have hb : b ≠ 58 := fun hb => h (by simp [hb])
    have hrest : 58 ∉ rest := fun hr => h (by simp [hr])
    rw [splitColon, ih hrest]
    simp [hb]

theorem splitColon_append_cons {xs : RStr} (ys : RStr) (h : 58 ∉ xs) :
    splitColon (xs ++ 58 :: ys) = xs :: splitColon ys := by
  induction xs with
  | nil => simp [splitColon]
  | cons b rest ih =>
    have hb : b ≠ 58 := fun hb => h (by simp [hb])
    have hrest : 58 ∉ rest := fun hr => h (by simp [hr])
    rw [List.cons_append, splitColon, ih hrest]
    simp [hb]

theorem natToBytes_no_colon (n : Nat) : (58 : Nat) ∉ natToBytes n := by
  intro h
  have := natToBytes_mem_digit h
  omega

theorem intToBytes_no_colon (i : Int) : (58 : Nat) ∉ intToBytes i := by
  intro h
  rw [intToBytes] at h
  split at h
  · rcases List.mem_cons.1 h with h' | h'
    · omega
    · exact natToBytes_no_colon _ h'
  · exact natToBytes_no_colon _ h

theorem intToBytes_head_le (i : Int) :
    ∃ b rest, intToBytes i = b :: rest ∧ b ≤ 57 := by
  rw [intToBytes]
  split
  · exact ⟨45, _, rfl, by omega⟩
  · rcases hn : natToBytes i.natAbs with _ | ⟨b, rest⟩
    · exact absurd hn (natToBytes_ne_nil _)
    · have hdig := natToBytes_mem_digit (show b ∈ natToBytes i.natAbs by rw [hn]; simp)
      exact ⟨b, rest, rfl, hdig.2⟩

/-- An id token can never equal one of the protocol's keyword tokens
(whose first bytes are lowercase letters, ≥ 100). -/
theorem intToBytes_ne_keyword (i : Int) (b : Nat) (rest : RStr)
    (hb : 100 ≤ b) : intToBytes i ≠ b :: rest := by
  intro h
  obtain ⟨b', rest', hbr, hle⟩ := intToBytes_head_le i
  rw [h] at hbr
  injection hbr with h1 _
  omega

theorem intToBytes_ne_public (i : Int) : intToBytes i ≠ strBytes "public" :=
  intToBytes_ne_keyword i 112 (strBytes "ublic") (by omega)

theorem intToBytes_ne_timeline (i : Int) : intToBytes i ≠ strBytes "timeline" :=
  intToBytes_ne_keyword i 116 (strBytes "imeline") (by omega)

theorem intToBytes_ne_notification (i : Int) : intToBytes i ≠ strBytes "notification" :=
  intToBytes_ne_keyword i 110 (strBytes "otification") (by omega)

theorem intToBytes_ne_hashtag (i : Int) : intToBytes i ≠ strBytes "hashtag" :=
  intToBytes_ne_keyword i 104 (strBytes "ashtag") (by omega)

/-! ## Claim theorems for the timeline codec -/

/-- Claim **C2, counterexample.**  The claimed round-trip
`from_redis_raw_timeline (to_redis_raw_timeline t name) cache ns = t`
fails on the code for the legal timeline `(Hashtag 42, Federated, All)`
with the consistent cache `{("rust", 42)}` and no namespace: the decoder
returns the sentinel `Hashtag 0` instead of consulting the cache. -/
theorem timeline_roundtrip_fails_for_hashtag :
    Timeline.to_redis_raw_timeline ⟨.Hashtag 42, .Federated, .All⟩ (some (strBytes "rust"))
      = some (strBytes "timeline:hashtag:rust") ∧
    Timeline.from_redis_raw_timeline (strBytes "timeline:hashtag:rust")
        [(strBytes "rust", 42)] none
      = .ok ⟨.Hashtag 0, .Federated, .All⟩ ∧
    Timeline.from_redis_raw_timeline (strBytes "timeline:hashtag:rust")
        [(strBytes "rust", 42)] none
      ≠ .ok ⟨.Hashtag 42, .Federated, .All⟩ := by
  decide

/-- Claim **C2 (amended).**  The round-trip holds for every legal timeline
whose stream is not a hashtag, when no namespace is configured (the
encoder never emits a namespace prefix, and hashtag channels decode to
the `Hashtag 0` sentinel, so those cases are excluded). -/
theorem legal_non_hashtag_roundtrip (t : Timeline) (name : Option RStr) (cache : TagCache)
    (hleg : t.isLegal = true) (hnh : ∀ id, t.stream ≠ Stream.Hashtag id)
    (hr : t.idInRange) :
    ∃ ch, t.to_redis_raw_timeline name = some ch ∧
      Timeline.from_redis_raw_timeline ch cache none = .ok t := by
  obtain ⟨s, r, c⟩ := t
  cases s with
  | Hashtag id => exact absurd rfl (hnh id)
  | Unset => cases r <;> cases c <;> simp [Timeline.isLegal] at hleg
  | Public =>
    cases r <;> cases c <;> first
      | exact ⟨_, rfl, rfl⟩
      | simp [Timeline.isLegal] at hleg
  | User id =>
    simp only [Timeline.idInRange] at hr
    obtain ⟨h1, h2⟩ := hr
    cases r with
    | Local => cases c <;> simp [Timeline.isLegal] at hleg
    | Federated =>
      cases c with
      | Media => simp [Timeline.isLegal] at hleg
      | All =>
        refine ⟨_, rfl, ?_⟩
        have hsp : splitColon (strBytes "timeline" ++ 58 :: intToBytes id)
            = [strBytes "timeline", intToBytes id] := by
          rw [splitColon_append_cons _ (by decide),
            splitColon_no_colon (intToBytes_no_colon id)]
        simp only [Timeline.from_redis_raw_timeline,
          show strBytes "timeline:" ++ intToBytes id
              = strBytes "timeline" ++ 58 :: intToBytes id from rfl, hsp]
        simp +decide only [fromArmsNoNs, intToBytes_ne_public id, parseIdUnwrap,
          parseI64_intToBytes h1 h2, if_true, if_false, true_and, false_and,
          and_false, and_true]
      | Notification =>
        refine ⟨_, rfl, ?_⟩
        have hsh : strBytes "timeline:" ++ intToBytes id ++ strBytes ":notification"
            = strBytes "timeline" ++ 58 :: (intToBytes id ++ 58 :: strBytes "notification") := by
          rw [List.append_assoc]; rfl
        have hsp : splitColon
              (strBytes "timeline" ++ 58 :: (intToBytes id ++ 58 :: strBytes "notification"))
            = [strBytes "timeline", intToBytes id, strBytes "notification"] := by
          rw [splitColon_append_cons _ (by decide),
            splitColon_append_cons _ (intToBytes_no_colon id),
            splitColon_no_colon (show (58 : Nat) ∉ strBytes "notification" by decide)]
        simp only [Timeline.from_redis_raw_timeline, hsh, hsp]
        simp +decide only [fromArmsNoNs, intToBytes_ne_public id, intToBytes_ne_timeline id,
          intToBytes_ne_notification id, intToBytes_ne_hashtag id, parseIdUnwrap,
          parseI64_intToBytes h1 h2, if_true, if_false, true_and, false_and,
          and_false, and_true]
  | List id =>
    simp only [Timeline.idInRange] at hr
    obtain ⟨h1, h2⟩ := hr
    cases r with
    | Local => cases c <;> simp [Timeline.isLegal] at hleg
    | Federated =>
      cases c with
      | Media => simp [Timeline.isLegal] at hleg
      | Notification => simp [Timeline.isLegal] at hleg
      | All =>
        refine ⟨_, rfl, ?_⟩
        have hsp : splitColon (strBytes "timeline" ++ 58 :: (strBytes "list" ++ 58 :: intToBytes id))
            = [strBytes "timeline", strBytes "list", intToBytes id] := by
          rw [splitColon_append_cons _ (by decide), splitColon_append_cons _ (by decide),
            splitColon_no_colon (intToBytes_no_colon id)]
        simp only [Timeline.from_redis_raw_timeline,
          show strBytes "timeline:list:" ++ intToBytes id
              = strBytes "timeline" ++ 58 :: (strBytes "list" ++ 58 :: intToBytes id) from rfl,
          hsp]
        simp +decide only [fromArmsNoNs, intToBytes_ne_notification id, parseIdUnwrap,
          parseI64_intToBytes h1 h2, if_true, if_false, true_and, false_and,
          and_false, and_true]
  | Direct id =>
    simp only [Timeline.idInRange] at hr
    obtain ⟨h1, h2⟩ := hr
    cases r with
    | Local => cases c <;> simp [Timeline.isLegal] at hleg
    | Federated =>
      cases c with
      | Media => simp [Timeline.isLegal] at hleg
      | Notification => simp [Timeline.isLegal] at hleg
      | All =>
        refine ⟨_, rfl, ?_⟩
        have hsp : splitColon
              (strBytes "timeline" ++ 58 :: (strBytes "direct" ++ 58 :: intToBytes id))
            = [strBytes "timeline", strBytes "direct", intToBytes id] := by
          rw [splitColon_append_cons _ (by decide), splitColon_append_cons _ (by decide),
            splitColon_no_colon (intToBytes_no_colon id)]
        simp only [Timeline.from_redis_raw_timeline,
          show strBytes "timeline:direct:" ++ intToBytes id
              = strBytes "timeline" ++ 58 :: (strBytes "direct" ++ 58 :: intToBytes id) from rfl,
          hsp]
        simp +decide only [fromArmsNoNs, intToBytes_ne_notification id, parseIdUnwrap,
          parseI64_intToBytes h1 h2, if_true, if_false, true_and, false_and,
          and_false, and_true]

/-- Claim **C2, witness** for the amended round-trip, at `(User 23, Federated, All)`. -/
theorem legal_non_hashtag_roundtrip_witness :
    ∃ ch, Timeline.to_redis_raw_timeline ⟨.User 23, .Federated, .All⟩ none = some ch ∧
      Timeline.from_redis_raw_timeline ch [] none = .ok ⟨.User 23, .Federated, .All⟩ :=
  legal_non_hashtag_roundtrip ⟨.User 23, .Federated, .All⟩ none []
    (by decide) (fun id h => Stream.noConfusion h) (by norm_num [Timeline.idInRange])

/-- Claim **C3.**  Contrary to the claim that every hashtag-shaped channel
resolves its tag name through the cache's name→id map (with a miss
fatal), the decoder substitutes the sentinel `Hashtag 0` without any
cache lookup for `timeline:hashtag:<name>:local` (with or without a
namespace) and for namespace-free `timeline:hashtag:<name>`, even when
the cache holds `("rust", 42)`.  Only the namespaced non-local form
consults the cache. -/
theorem hashtag_decode_bypasses_cache :
    Timeline.from_redis_raw_timeline (strBytes "timeline:hashtag:rust:local")
        [(strBytes "rust", 42)] none = .ok ⟨.Hashtag 0, .Local, .All⟩ ∧
    Timeline.from_redis_raw_timeline (strBytes "mx:timeline:hashtag:rust:local")
        [(strBytes "rust", 42)] (some (strBytes "mx")) = .ok ⟨.Hashtag 0, .Local, .All⟩ ∧
    Timeline.from_redis_raw_timeline (strBytes "timeline:hashtag:rust")
        [(strBytes "rust", 42)] none = .ok ⟨.Hashtag 0, .Federated, .All⟩ ∧
    Timeline.from_redis_raw_timeline (strBytes "mx:timeline:hashtag:rust")
        [(strBytes "rust", 42)] (some (strBytes "mx")) = .ok ⟨.Hashtag 42, .Federated, .All⟩ ∧
    Timeline.from_redis_raw_timeline (strBytes "mx:timeline:hashtag:rust") []
        (some (strBytes "mx")) = .fatal := by
  decide

/-- Claim **C4.**  Contrary to the claim that a User/List/Direct id token that
fails to parse as `i64` yields `InvalidInput` without panicking, the
namespace-free decoder calls `.unwrap()` on the parse and panics
(`fatal`); and with a namespace configured, an unmatched channel shape
hits `log_fatal!` instead of returning `InvalidInput`.  (Only some
namespaced arms use `?` and return `InvalidInput`, and namespace-free
unmatched shapes do return `InvalidInput`.) -/
theorem id_parse_failure_panics :
    Timeline.from_redis_raw_timeline (strBytes "timeline:not-a-number") [] none = .fatal ∧
    Timeline.from_redis_raw_timeline (strBytes "timeline:list:not-a-number") [] none = .fatal ∧
    Timeline.from_redis_raw_timeline (strBytes "mx:timeline:not-a-number") []
        (some (strBytes "mx")) = .fatal ∧
    Timeline.from_redis_raw_timeline (strBytes "mx:a:b:c:d:e:f") []
        (some (strBytes "mx")) = .fatal ∧
    Timeline.from_redis_raw_timeline (strBytes "mx:timeline:list:not-a-number") []
        (some (strBytes "mx")) = .err .InvalidInput ∧
    Timeline.from_redis_raw_timeline (strBytes "a:b:c:d:e:f:g") [] none
      = .err .InvalidInput := by
  decide

end RQ

namespace RQ

/-! ## Claim theorems for the receiver's reference counting -/

theorem countsGet_countsSet (m : ClientCounts) (t : Timeline) (v : Int) :
    countsGet (countsSet m t v) t = some v := by
  induction m with
  | nil => simp [countsSet, countsGet]
  | cons p rest ih =>
    obtain ⟨t', v'⟩ := p
    by_cases ht : t' = t
    · simp [countsSet, countsGet, ht]
    · simp [countsSet, countsGet, ht, ih]

/-- Claim **C1.**  A change processed by `subscribe_or_unsubscribe_as_needed`
emits `SUBSCRIBE` exactly when a registration takes the client count of
its timeline from 0 to 1, and `UNSUBSCRIBE` exactly when an
unregistration takes it from 1 to 0; a second registration (count
already ≥ 1) and a non-last unregistration (count ≥ 2) emit nothing.
The hypotheses state that counts of reachable states are non-negative
and that an unregistration only occurs for a timeline with at least one
client. -/
theorem subscribe_cmds_exactly_on_refcount_transition (counts : ClientCounts)
    (ch : Change) (hashtag : Option RStr)
    (hdelta : ch.in_subscriber_number = 1 ∨ ch.in_subscriber_number = -1)
    (hnn : ∀ k, countsGet counts ch.timeline = some k → 0 ≤ k)
    (hunreg : ch.in_subscriber_number = -1 →
      ∃ k, countsGet counts ch.timeline = some k ∧ 1 ≤ k) :
    (processChange counts ch hashtag).2 =
      (if ch.in_subscriber_number = 1 ∧ (countsGet counts ch.timeline).getD 0 = 0 then
        [⟨.subscribe, ch.timeline, hashtag⟩]
      else if ch.in_subscriber_number = -1 ∧ (countsGet counts ch.timeline).getD 0 = 1 then
        [⟨.unsubscribe, ch.timeline, hashtag⟩]
      else []) ∧
    countsGet (processChange counts ch hashtag).1 ch.timeline
      = some ((countsGet counts ch.timeline).getD 0 + ch.in_subscriber_number) := by
  rcases hdelta with h1 | h1 <;> rcases hd : countsGet counts ch.timeline with _ | k
  · simp only [processChange, hd, h1, Option.getD_none]
    refine ⟨by norm_num, ?_⟩
    rw [countsGet_countsSet]
    norm_num
  · have hk0 : 0 ≤ k := hnn k hd
    simp +decide only [processChange, hd, h1, Option.getD_some, true_and, false_and,
      and_true, and_false, if_true, if_false]
    refine ⟨?_, by rw [countsGet_countsSet]⟩
    rw [if_neg (by omega : ¬ (k + 1 ≤ 0))]
    by_cases hk : k = 0
    · subst hk; norm_num
    · rw [if_neg (by omega : ¬ (k + 1 = 1)), if_neg hk]
  · obtain ⟨k, hk, _⟩ := hunreg h1
    rw [hd] at hk
    exact Option.noConfusion hk
  · obtain ⟨k', hk', hk1⟩ := hunreg h1
    rw [hd] at hk'
    injection hk' with hkk
    subst hkk
    simp +decide only [processChange, hd, h1, Option.getD_some, true_and, false_and,
      and_true, and_false, if_true, if_false]
    refine ⟨?_, by rw [countsGet_countsSet]⟩
    by_cases hk : k = 1
    · subst hk; norm_num
    · rw [if_neg (by omega : ¬ (k + -1 ≤ 0)), if_neg hk]

/-- Claim **C1, witness**: the spec's scenario 2 — two registrations on
`(Public, Federated, All)` emit exactly one `SUBSCRIBE`; unregistering
the first client emits nothing, unregistering the last emits the one
`UNSUBSCRIBE`. -/
theorem subscribe_cmds_transition_witness :
    (processChange [] ⟨⟨.Public, .Federated, .All⟩, 1⟩ none).2
      = [⟨.subscribe, ⟨.Public, .Federated, .All⟩, none⟩] ∧
    (processChange [(⟨.Public, .Federated, .All⟩, 1)]
        ⟨⟨.Public, .Federated, .All⟩, 1⟩ none).2 = [] ∧
    (processChange [(⟨.Public, .Federated, .All⟩, 2)]
        ⟨⟨.Public, .Federated, .All⟩, -1⟩ none).2 = [] ∧
    (processChange [(⟨.Public, .Federated, .All⟩, 1)]
        ⟨⟨.Public, .Federated, .All⟩, -1⟩ none).2
      = [⟨.unsubscribe, ⟨.Public, .Federated, .All⟩, none⟩] := by
  refine ⟨?_, ?_, ?_, ?_⟩
  · have h := subscribe_cmds_exactly_on_refcount_transition []
      ⟨⟨.Public, .Federated, .All⟩, 1⟩ none (Or.inl rfl)
      (by intro k hk; exact Option.noConfusion hk) (by intro h; exact absurd h (by decide))
    simpa using h.1
  · have h := subscribe_cmds_exactly_on_refcount_transition
      [(⟨.Public, .Federated, .All⟩, 1)] ⟨⟨.Public, .Federated, .All⟩, 1⟩ none (Or.inl rfl)
      (by intro k hk; simp [countsGet] at hk; omega) (by intro h; exact absurd h (by decide))
    simpa using h.1
  · have h := subscribe_cmds_exactly_on_refcount_transition
      [(⟨.Public, .Federated, .All⟩, 2)] ⟨⟨.Public, .Federated, .All⟩, -1⟩ none (Or.inr rfl)
      (by intro k hk; simp [countsGet] at hk; omega)
      (by intro _; exact ⟨2, by simp [countsGet], by omega⟩)
    simpa using h.1
  · have h := subscribe_cmds_exactly_on_refcount_transition
      [(⟨.Public, .Federated, .All⟩, 1)] ⟨⟨.Public, .Federated, .All⟩, -1⟩ none (Or.inr rfl)
      (by intro k hk; simp [countsGet] at hk; omega)
      (by intro _; exact ⟨1, by simp [countsGet], by omega⟩)
    simpa using h.1

/-! ## Claim theorem for receiver drop -/

/-- A receiver holding two active timelines, `(Public, Federated, All)`
and `(Public, Local, All)` (one client each), whose last-assigned
`timeline` field is the latter. -/
def dropScenario : Receiver :=
  ⟨[], [(⟨.Public, .Federated, .All⟩, 1), (⟨.Public, .Local, .All⟩, 1)],
    ⟨.Public, .Local, .All⟩, 0, [], 5⟩

/-- Claim **C8.**  Contrary to the claim (and the spec's stated requirement)
that dropping the receiver unsubscribes every timeline with a positive
refcount, `impl Drop for Receiver` emits a single `UNSUBSCRIBE` for the
last-assigned timeline only: here two timelines are active but
`(Public, Federated, All)` is never unsubscribed. -/
theorem drop_unsubscribes_only_last_timeline :
    Receiver.drop_cmds dropScenario
      = [⟨.unsubscribe, ⟨.Public, .Local, .All⟩, none⟩] ∧
    activeTimelines dropScenario.clients_per_timeline
      = [⟨.Public, .Federated, .All⟩, ⟨.Public, .Local, .All⟩] ∧
    ¬ ∃ c ∈ Receiver.drop_cmds dropScenario,
        c.timeline = ⟨.Public, .Federated, .All⟩ := by
  decide

end RQ

namespace RQ

/-! ## Claim theorems for the bus connection's frame pump -/

/-- Claim **C5, counterexample.**  The claim says a malformed frame is logged
and the buffer advanced past it so that subsequent frames are still
processed.  On the code, a malformed frame (`!bad\r\n`, followed by a
complete well-formed frame) makes `poll_redis` return the parse error
to its caller and write the **entire** input — the malformed frame
included — back into the buffer: nothing is advanced, and the following
frame is not processed. -/
theorem malformed_frame_not_skipped :
    RedisConn.poll_redis ⟨none, [], []⟩ (strBytes "!bad\r\n*1\r\n$2\r\nok\r\n")
      = (⟨none, [], strBytes "!bad\r\n*1\r\n$2\r\nok\r\n"⟩,
        .error (.RedisParseErr .Malformed)) ∧
    RedisParseOutput.try_from (strBytes "*1\r\n$2\r\nok\r\n")
      = .ok (.NonMsg []) := by
  decide

/-- Claim **C5 (amended).**  When the parse of the buffered bytes fails with
any error other than `Incomplete`, `poll_redis` surfaces the error to
its caller and retains the whole input (valid prefix and invalid tail)
in the buffer; it does not log-and-advance past the framing unit. -/
theorem malformed_frame_error_and_buffer_kept (conn : RedisConn) (new_bytes : RStr)
    (e : RedisParseErr)
    (hne : conn.redis_input ++ new_bytes ≠ [])
    (hparse : RedisParseOutput.try_from
        ((conn.redis_input ++ new_bytes).take
          (utf8ValidUpTo (conn.redis_input ++ new_bytes)))
      = .error e)
    (hinc : e ≠ .Incomplete) :
    RedisConn.poll_redis conn new_bytes
      = ({ conn with redis_input := conn.redis_input ++ new_bytes },
        .error (.RedisParseErr e)) := by
  cases e with
  | Incomplete => exact absurd rfl hinc
  | Malformed =>
    simp only [RedisConn.poll_redis, if_neg hne, hparse]
    rw [List.take_append_drop]

/-- Claim **C5, witness** at the concrete malformed input `!x\r\n`. -/
theorem malformed_frame_error_witness :
    RedisConn.poll_redis ⟨none, [], strBytes "!x\r\n"⟩ []
      = (⟨none, [], strBytes "!x\r\n"⟩, .error (.RedisParseErr .Malformed)) := by
  have h := malformed_frame_error_and_buffer_kept ⟨none, [], strBytes "!x\r\n"⟩ []
    .Malformed (by decide) (by decide) (by decide)
  simpa using h

/-- Claim **C6, counterexample.**  The claim says that for *every* byte
sequence whose tail is not valid UTF-8, the invalid tail bytes are
retained in the buffer for the next read, so no bytes are lost across
the split.  On the code this fails: a complete `message` frame whose
channel does not decode (here `timeline:x`, whose id token fails the
i64 parse, giving `InvalidInput`) followed by a dangling UTF-8 lead
byte `0xC3` makes the `?` on the channel decode return early *after*
`redis_input.clear()`, skipping the write-back — the buffer ends up
empty and the `0xC3` tail is lost, even though the input's valid prefix
(42 bytes of 43) was strictly shorter than the input. -/
theorem utf8_tail_lost_on_decode_error :
    RedisConn.poll_redis ⟨none, [], []⟩
        (strBytes "*3\r\n$7\r\nmessage\r\n$10\r\ntimeline:x\r\n$2\r\n{}\r\n" ++ [195])
      = (⟨none, [], []⟩, .error (.TimelineErr .InvalidInput)) ∧
    utf8ValidUpTo (strBytes "*3\r\n$7\r\nmessage\r\n$10\r\ntimeline:x\r\n$2\r\n{}\r\n" ++ [195])
      < (strBytes "*3\r\n$7\r\nmessage\r\n$10\r\ntimeline:x\r\n$2\r\n{}\r\n" ++ [195]).length := by
  decide

/-- Claim **C6 (amended).**  When the accumulated buffer's tail is not
valid UTF-8 (its longest valid prefix is strictly shorter than the
buffer), `poll_redis` parses only that valid prefix; the invalid tail
bytes are retained in the buffer on the `Incomplete` path (the buffer
afterwards is exactly the whole input, no byte lost) and on the
non-message path (the parser's leftover followed by the invalid tail) —
but on the decode-error path, where the channel of a complete message
frame fails to decode, the `?` early return after `redis_input.clear()`
skips the write-back and both the leftover and the invalid tail are
dropped, so bytes *are* lost across the split there. -/
theorem invalid_utf8_tail_retained (conn : RedisConn) (new_bytes : RStr)
    (hv : utf8ValidUpTo (conn.redis_input ++ new_bytes)
      < (conn.redis_input ++ new_bytes).length) :
    (RedisParseOutput.try_from
        ((conn.redis_input ++ new_bytes).take
          (utf8ValidUpTo (conn.redis_input ++ new_bytes)))
      = .error .Incomplete →
      RedisConn.poll_redis conn new_bytes
        = ({ conn with redis_input := conn.redis_input ++ new_bytes }, .ok .NotReady)) ∧
    (∀ lf, RedisParseOutput.try_from
        ((conn.redis_input ++ new_bytes).take
          (utf8ValidUpTo (conn.redis_input ++ new_bytes)))
      = .ok (.NonMsg lf) →
      RedisConn.poll_redis conn new_bytes
        = ({ conn with redis_input :=
              (lf ++ List.drop (utf8ValidUpTo (conn.redis_input ++ new_bytes))
                (conn.redis_input ++ new_bytes)) },
          .ok (.Ready none))) ∧
    (∀ ch pl lf trimmed e,
      RedisParseOutput.try_from
          ((conn.redis_input ++ new_bytes).take
            (utf8ValidUpTo (conn.redis_input ++ new_bytes)))
        = .ok (.Msg ch pl lf) →
      conn.redis_namespace = none →
      sliceFrom ch 9 = some trimmed →
      Timeline.from_redis_text trimmed conn.tag_id_cache = .err e →
      RedisConn.poll_redis conn new_bytes
        = ({ conn with redis_input := [] }, .error (.TimelineErr e))) := by
  have hne : conn.redis_input ++ new_bytes ≠ [] := by
    intro h
    rw [h] at hv
    simp at hv
  refine ⟨?_, ?_, ?_⟩
  · intro hparse
    simp only [RedisConn.poll_redis, if_neg hne, hparse]
    rw [List.take_append_drop]
  · intro lf hparse
    simp only [RedisConn.poll_redis, if_neg hne, hparse]
  · intro ch pl lf trimmed e hparse hns hslice hdecode
    simp only [RedisConn.poll_redis, if_neg hne, hparse, hns, hslice, hdecode]

/-- Claim **C6, witness**: a frame split mid-way with a dangling UTF-8 lead
byte `0xC3` at the tail; the valid prefix parses `Incomplete` and the
whole byte sequence — the `0xC3` included — is retained. -/
theorem invalid_utf8_tail_retained_witness :
    RedisConn.poll_redis ⟨none, [], []⟩ (strBytes "*3\r\n$7\r\nmess" ++ [195])
      = (⟨none, [], strBytes "*3\r\n$7\r\nmess" ++ [195]⟩, .ok .NotReady) := by
  have h := (invalid_utf8_tail_retained ⟨none, [], []⟩
    (strBytes "*3\r\n$7\r\nmess" ++ [195]) (by decide)).1 (by decide)
  simpa using h

/-- Claim **C10.**  Each `poll_redis` call yields at most one decoded pair:
with an empty buffer and no new bytes it returns `NotReady` leaving the
buffer empty, and when the first framing unit of the valid prefix is a
`message` whose channel decodes (no namespace configured), it returns
exactly that one `(Timeline, Event)` pair and writes the parser's
leftover — any further complete frames included — plus the invalid tail
back into the buffer for a later call. -/
theorem poll_redis_one_frame_per_call (conn : RedisConn) (new_bytes : RStr) :
    (conn.redis_input ++ new_bytes = [] →
      RedisConn.poll_redis conn new_bytes
        = ({ conn with redis_input := [] }, .ok .NotReady)) ∧
    (∀ ch pl lf trimmed tl,
      RedisParseOutput.try_from
          ((conn.redis_input ++ new_bytes).take
            (utf8ValidUpTo (conn.redis_input ++ new_bytes)))
        = .ok (.Msg ch pl lf) →
      conn.redis_namespace = none →
      sliceFrom ch 9 = some trimmed →
      Timeline.from_redis_text trimmed conn.tag_id_cache = .ok tl →
      RedisConn.poll_redis conn new_bytes
        = ({ conn with redis_input :=
              (lf ++ List.drop (utf8ValidUpTo (conn.redis_input ++ new_bytes))
                (conn.redis_input ++ new_bytes)) },
          .ok (.Ready (some (tl, pl))))) := by
  constructor
  · intro h
    simp only [RedisConn.poll_redis, if_pos h]
  · intro ch pl lf trimmed tl hparse hns hslice hdecode
    have hne : conn.redis_input ++ new_bytes ≠ [] := by
      intro h
      rw [h] at hparse
      simp [RedisParseOutput.try_from] at hparse
    simp only [RedisConn.poll_redis, if_neg hne, hparse, hns, hslice, hdecode]

/-- Claim **C10, witness**: two complete frames arriving in one read are
decoded one per call — the first call returns the first pair and leaves
the second frame's bytes in the buffer; the second call (no new bytes)
returns the second pair and leaves the buffer empty. -/
theorem poll_redis_one_frame_per_call_witness :
    RedisConn.poll_redis ⟨none, [], []⟩
        (strBytes "*3\r\n$7\r\nmessage\r\n$15\r\ntimeline:public\r\n$1\r\na\r\n*3\r\n$7\r\nmessage\r\n$21\r\ntimeline:public:local\r\n$1\r\nb\r\n")
      = (⟨none, [], strBytes "*3\r\n$7\r\nmessage\r\n$21\r\ntimeline:public:local\r\n$1\r\nb\r\n"⟩,
        .ok (.Ready (some (⟨.Public, .Federated, .All⟩, strBytes "a")))) ∧
    RedisConn.poll_redis
        ⟨none, [], strBytes "*3\r\n$7\r\nmessage\r\n$21\r\ntimeline:public:local\r\n$1\r\nb\r\n"⟩ []
      = (⟨none, [], []⟩, .ok (.Ready (some (⟨.Public, .Local, .All⟩, strBytes "b")))) := by
  constructor
  · have h := (poll_redis_one_frame_per_call ⟨none, [], []⟩
      (strBytes "*3\r\n$7\r\nmessage\r\n$15\r\ntimeline:public\r\n$1\r\na\r\n*3\r\n$7\r\nmessage\r\n$21\r\ntimeline:public:local\r\n$1\r\nb\r\n")).2
      (strBytes "timeline:public") (strBytes "a")
      (strBytes "*3\r\n$7\r\nmessage\r\n$21\r\ntimeline:public:local\r\n$1\r\nb\r\n")
      (strBytes "public") ⟨.Public, .Federated, .All⟩
      (by decide) rfl (by decide) (by decide)
    simpa using h
  · have h := (poll_redis_one_frame_per_call
      ⟨none, [], strBytes "*3\r\n$7\r\nmessage\r\n$21\r\ntimeline:public:local\r\n$1\r\nb\r\n"⟩ []).2
      (strBytes "timeline:public:local") (strBytes "b") []
      (strBytes "public:local") ⟨.Public, .Local, .All⟩
      (by decide) rfl (by decide) (by decide)
    simpa using h

end RQ

namespace RQ

/-! ## Claim theorems for `Receiver::poll` -/

/-- The message list of the queue registered under a client id. -/
def queueMessages : MessageQueues → Uuid → List RStr
  | [], _ => []
  | (qid, q) :: rest, id => if qid = id then q.messages else queueMessages rest id

theorem queueMessages_update_time (qs : MessageQueues) (id id' : Uuid) (now : Nat) :
    queueMessages (update_time_for_target_queue qs id now) id'
      = queueMessages qs id' := by
  induction qs with
  | nil => rfl
  | cons p rest ih =>
    obtain ⟨qid, q⟩ := p
    simp only [update_time_for_target_queue]
    by_cases h : qid = id
    · subst h
      simp only [if_pos rfl]
      by_cases h' : qid = id' <;> simp [queueMessages, h', ih]
    · rw [if_neg h]
      by_cases h' : qid = id' <;> simp [queueMessages, h', ih]

theorem oldest_pop_snd (qs : MessageQueues) (id : Uuid) (tl : Timeline) (now : Nat) :
    (oldest_msg_in_target_queue qs id tl now).2 = (queueMessages qs id).head? := by
  induction qs with
  | nil => rfl
  | cons p rest ih =>
    obtain ⟨qid, q⟩ := p
    by_cases h : qid = id
    · rcases hm : q.messages with _ | ⟨m, ms⟩ <;>
        simp [oldest_msg_in_target_queue, queueMessages, h, hm]
    · simp [oldest_msg_in_target_queue, queueMessages, h, ih]

/-- Claim **C7, counterexample.**  The claim says `poll` returns `NotReady`
whenever the rate-limited bus drain is skipped because the elapsed time
is below the poll interval.  On the code, a skipped drain
(elapsed 3 < interval 5) with a non-empty queue still returns
`Ready` with the queued message. -/
theorem poll_ready_despite_skipped_drain :
    Receiver.poll
        ⟨[(7, ⟨⟨.Public, .Federated, .All⟩, [strBytes "x"], 0⟩)], [],
          ⟨.Public, .Federated, .All⟩, 7, [], 5⟩ 3 10 []
      = some (⟨[(7, ⟨⟨.Public, .Federated, .All⟩, [], 10⟩)], [],
          ⟨.Public, .Federated, .All⟩, 7, [], 5⟩, .Ready (strBytes "x")) ∧
    3 < 5 := by
  decide

/-- Claim **C7 (amended).**  `poll` never blocks (it is a pure state
transition); the bus is drained only when the elapsed time strictly
exceeds the poll interval (otherwise the queues are untouched); and the
result is `NotReady` exactly when the polled client's queue is empty
after the conditional drain — otherwise `Ready` with that queue's
oldest message, whether or not the drain was skipped. -/
theorem poll_result_characterization (r : Receiver) (elapsed now : Nat)
    (incoming : List (RStr × RStr)) (qs : MessageQueues)
    (hqs : queuesAfterDrain r elapsed incoming = some qs) :
    ∃ r' res, Receiver.poll r elapsed now incoming = some (r', res) ∧
      (res = .NotReady ↔ queueMessages qs r.manager_id = []) ∧
      (∀ v vs, queueMessages qs r.manager_id = v :: vs → res = .Ready v) ∧
      (elapsed ≤ r.redis_poll_interval → qs = r.msg_queues) := by
  have hpop := oldest_pop_snd (update_time_for_target_queue qs r.manager_id now)
    r.manager_id r.timeline now
  rw [queueMessages_update_time] at hpop
  refine ⟨{ r with msg_queues := (oldest_msg_in_target_queue
      (update_time_for_target_queue qs r.manager_id now) r.manager_id r.timeline now).1 },
    (match (oldest_msg_in_target_queue (update_time_for_target_queue qs r.manager_id now)
      r.manager_id r.timeline now).2 with
      | some v => .Ready v
      | none => .NotReady), ?_, ?_, ?_, ?_⟩
  · simp only [Receiver.poll, hqs, Option.map_some']
  · rw [hpop]
    rcases hq : queueMessages qs r.manager_id with _ | ⟨m, ms⟩ <;> simp
  · intro v vs hq
    rw [hpop, hq]
    simp
  · intro hle
    rw [queuesAfterDrain, if_neg (by omega)] at hqs
    injection hqs with h
    exact h.symm

/-- Claim **C7, witness**: a skipped drain (elapsed 2 ≤ interval 5) with one
queued message yields `Ready` with it, and the untouched queues. -/
theorem poll_result_characterization_witness :
    ∃ r' res, Receiver.poll
        ⟨[(3, ⟨⟨.Public, .Federated, .All⟩, [strBytes "m"], 0⟩)], [],
          ⟨.Public, .Federated, .All⟩, 3, [], 5⟩ 2 9 []
      = some (r', res) ∧
      (res = .NotReady ↔ queueMessages
        [(3, (⟨⟨.Public, .Federated, .All⟩, [strBytes "m"], 0⟩ : MsgQueue))] 3 = []) ∧
      (∀ v vs, queueMessages
        [(3, (⟨⟨.Public, .Federated, .All⟩, [strBytes "m"], 0⟩ : MsgQueue))] 3 = v :: vs →
        res = .Ready v) ∧
      (2 ≤ 5 → [(3, (⟨⟨.Public, .Federated, .All⟩, [strBytes "m"], 0⟩ : MsgQueue))]
        = [(3, (⟨⟨.Public, .Federated, .All⟩, [strBytes "m"], 0⟩ : MsgQueue))]) :=
  poll_result_characterization
    ⟨[(3, ⟨⟨.Public, .Federated, .All⟩, [strBytes "m"], 0⟩)], [],
      ⟨.Public, .Federated, .All⟩, 3, [], 5⟩ 2 9 []
    [(3, ⟨⟨.Public, .Federated, .All⟩, [strBytes "m"], 0⟩)] (by decide)

/-! ## Claim theorem for the `user:notification` auth gate -/

/-- Claim **C9.**  For a subscription request with stream `user:notification`
whose token resolves to a user: without the `Statuses` scope the
resolver rejects the request, and with it the resolver produces a
`Subscription` whose timeline is `(User(self), Federated, Notification)`
for the authenticated user's own id. -/
theorem user_notification_requires_statuses_scope (q : Query) (pool : PgPool)
    (wl : Bool) (tok : RStr) (user : UserData)
    (hstream : q.stream = strBytes "user:notification")
    (haccess : q.access_token = some tok)
    (hsel : pool.select_user tok = .ok user) :
    (Scope.Statuses ∉ user.scopes →
      Subscription.from_query q pool wl
        = .error (strBytes "Error: Missing access token")) ∧
    (Scope.Statuses ∈ user.scopes →
      ∃ sub, Subscription.from_query q pool wl = .ok sub ∧
        sub.timeline = ⟨.User user.id, .Federated, .Notification⟩) := by
  have hfq : Timeline.from_query_and_user q user pool
      = (if Scope.Statuses ∈ user.scopes
          then .ok ⟨.User user.id, .Federated, .Notification⟩
          else .error (strBytes "Error: Missing access token")) := by
    simp +decide only [Timeline.from_query_and_user, hstream, if_true, if_false]
  constructor
  · intro hnotin
    rw [if_neg hnotin] at hfq
    simp only [Subscription.from_query, haccess, hsel, hfq]
  · intro hin
    rw [if_pos hin] at hfq
    refine ⟨⟨⟨.User user.id, .Federated, .Notification⟩, user.allowed_langs,
      ⟨pool.select_blocked_domains user.id, pool.select_blocked_users user.id,
        pool.select_blocking_users user.id⟩, none, q.access_token⟩, ?_, rfl⟩
    simp only [Subscription.from_query, haccess, hsel, hfq]

/-- A pool whose token lookup yields a user with the `Statuses` scope. -/
def poolStatuses : PgPool :=
  ⟨fun _ => .ok ⟨1, [], [Scope.Statuses]⟩, fun _ => .ok 0, fun _ _ => false,
    fun _ => [], fun _ => [], fun _ => []⟩

/-- A pool whose token lookup yields a user with no scopes. -/
def poolNoScopes : PgPool :=
  ⟨fun _ => .ok ⟨1, [], []⟩, fun _ => .ok 0, fun _ _ => false,
    fun _ => [], fun _ => [], fun _ => []⟩

/-- Claim **C9, witness**: concrete request `stream=user:notification` with a
token; with `Statuses` the subscription's timeline is
`(User 1, Federated, Notification)`, without it the request is
rejected. -/
theorem user_notification_gate_witness :
    (∃ sub, Subscription.from_query
        ⟨some (strBytes "T"), strBytes "user:notification", false, [], 0⟩
        poolStatuses false = .ok sub ∧
      sub.timeline = ⟨.User 1, .Federated, .Notification⟩) ∧
    Subscription.from_query
        ⟨some (strBytes "T"), strBytes "user:notification", false, [], 0⟩
        poolNoScopes false
      = .error (strBytes "Error: Missing access token") := by
  constructor
  · exact (user_notification_requires_statuses_scope
      ⟨some (strBytes "T"), strBytes "user:notification", false, [], 0⟩
      poolStatuses false (strBytes "T") ⟨1, [], [Scope.Statuses]⟩
      rfl rfl rfl).2 (by decide)
  · exact (user_notification_requires_statuses_scope
      ⟨some (strBytes "T"), strBytes "user:notification", false, [], 0⟩
      poolNoScopes false (strBytes "T") ⟨1, [], []⟩
      rfl rfl rfl).1 (by decide)

end RQ
